import Mathlib

/-!
Sirena XML client: transport core and ticket lookup.

A shallow embedding of `sirena/client.go` (response router, request
dispatcher, key handshake, encrypted XML round trip, constructor) and of
`structs/get.itin.receipts.data.response.types.go` (first-match ticket lookup).

Conventions of the embedding

* a byte slice is a `List Nat`; a nil slice and an empty slice are both `[]`
  (the code only ever asks for `len`);
* a `*Header` that the code tests against nil is an `Option Header`;
* a Go function that returns `(value, error)` returns `Res`, which also has the
  two ways a Go call can end without returning: a run-time panic and a process
  exit through `log.Fatal` / `logger.Fatal`;
* the collaborators that live in other packages (header codec, `des`, `crypt`,
  `random`, configuration, the network) are fields of `Env`: every theorem
  quantifies over them;
* every operation returns, next to its result, the client state after the call
  and the list of effects it performed, oldest first.
-/

namespace Sirena

/-- Byte slices. -/
abbrev Bytes := List Nat

/-- Modelled from the spec: the decoded message header. The declaration of the
Go type `Header` is in `header.go`, which is not among the sources; `client.go`
reads the fields `MessageLength`, `MessageID`, `ClientID` and `CreatedAt`, the spec
adds the two flag bits. All numeric fields are unsigned machine integers that the
code only compares. -/
structure Header where
  MessageLength : Nat
  MessageID : Nat
  ClientID : Nat
  CreatedAt : Nat
  UseEncrypt : Bool
  UseSymmetric : Bool
deriving DecidableEq, Repr

/-- Modelled from the spec: the argument record of `NewHeader` (declared in
`header.go`); `client.go` sets `Message`, `UseEncrypt` and `UseSymmetric`. -/
structure NewHeaderParams where
  Message : Bytes
  UseEncrypt : Bool
  UseSymmetric : Bool
deriving DecidableEq, Repr

/-- Request is a Sirena request (`client.go`, type `Request`). -/
structure Request where
  Header : Option Header
  SubHeader : Bytes
  Message : Bytes
  MessageSignature : Bytes
deriving DecidableEq, Repr

/-- Response is a Sirena response (`client.go`, type `Response`). The only sender
on a response channel is the router, which always stores the address of the header
it has just parsed, so the header pointer is never nil; `Message` is made with
`make([]byte, n)`, so its capacity is its length. -/
structure Response where
  Header : Header
  Message : Bytes
deriving DecidableEq, Repr

/-- Error values. The first group are the errors `client.go` builds itself, `eof`
is what a read at the end of the stream reports, `other` is an error value handed
back by a collaborator. -/
inductive Err where
  | noHeader
  | noMessageID
  | timeout
  | noKey
  | clientIDMismatch (request response : Nat)
  | createdAtMismatch (request response : Nat)
  | keyMismatch (key responseKey : Bytes)
  | eof
  | other (code : Nat)
deriving DecidableEq, Repr

/-- How a call ends: it returns a value, it returns an error value, it panics
(nil dereference, slice bounds), or the process exits (`Fatal`). -/
inductive Res (α : Type) where
  | ok (a : α)
  | error (e : Err)
  | panic
  | exit
deriving DecidableEq, Repr

/-- A response channel, identified by the order of its `make(chan *Response)`. -/
abbrev Chan := Nat

/-- The map `ResponseQueue.Data : map[uint32](chan *Response)`. -/
abbrev WaiterTable := Nat → Option Chan

/-- Client is a sirena client (`client.go`, type `Client`). `ResponseQueue` is a
pointer and may be nil. `chans` and `router` are ghost state: the number of channels
made so far (so that `make` returns a fresh one) and whether the goroutine
`handleResponseQueue` has been started for this client. -/
structure Client where
  ResponseQueue : Option WaiterTable
  Key : Bytes
  chans : Nat
  router : Bool

/-- Effects that the claims observe. -/
inductive Event where
  | encrypt (data key : Bytes)
  | newHeader (p : NewHeaderParams)
  | write (data : Bytes)
  | decrypt (data key : Bytes)
deriving DecidableEq, Repr

/-- The collaborators of `client.go` and the choices of its environment.

* `ParseHeader`, `ToBytes`, `NewHeader`, `MakeSubHeader`: the header codec;
* `desEncrypt`, `desDecrypt`: package `des`;
* `EncryptDataWithServerPubKey`, `GeneratePrivateKeySignature`,
  `DecryptDataWithClientPrivateKey`: package `crypt`;
* `GetKeyFile` and the three configuration values; `randomString`: package `random`;
* `dial`: the error of `net.Dial`, if any; `write`: the error of `Conn.Write` on the
  given bytes, if any;
* `reply`: what the router sends on the given channel within five seconds, if
  anything;
* `rekey`: the key that a concurrent `CreateAndSignKey` stores into `client.Key`
  while `Send` is waiting, if any. -/
structure Env where
  ParseHeader : Bytes → Header
  ToBytes : Header → Bytes
  NewHeader : NewHeaderParams → Header
  MakeSubHeader : Bytes → Bytes
  desEncrypt : Bytes → Bytes → Except Err Bytes
  desDecrypt : Bytes → Bytes → Except Err Bytes
  EncryptDataWithServerPubKey : Bytes → Bytes → Except Err Bytes
  GeneratePrivateKeySignature : Bytes → Bytes → Bytes → Except Err Bytes
  DecryptDataWithClientPrivateKey : Bytes → Bytes → Bytes → Except Err Bytes
  GetKeyFile : Bytes → Except Err Bytes
  ServerPublicKey : Bytes
  ClientPrivateKey : Bytes
  ClientPrivateKeyPassword : Bytes
  randomString : Nat → Bytes
  dial : Option Err
  write : Bytes → Option Err
  reply : Chan → Option Response
  rekey : Option Bytes

/-! ## Request dispatcher -/

/-- The bytes `SendAsync` assembles (lines 209 to 219): header, then the subheader
if it has a byte, then the message, then the signature if it has a byte. -/
def frame (env : Env) (header : Header) (request : Request) : Bytes :=
  let data : Bytes := []
  let data := data ++ env.ToBytes header
  let data := if request.SubHeader.length > 0 then data ++ request.SubHeader else data
  let data := data ++ request.Message
  let data := if request.MessageSignature.length > 0 then data ++ request.MessageSignature else data
  data

/-- The map assignment `Data[id] = ch`. -/
def WaiterTable.set (t : WaiterTable) (id : Nat) (ch : Chan) : WaiterTable :=
  fun k => if k = id then some ch else t k

/-- SendAsync sends the request and returns the channel to wait on
(`client.go`, `Client.SendAsync`). -/
def SendAsync (env : Env) (client : Client) (request : Request) :
    Res Chan × Client × List Event :=
  match request.Header with
  | none => (.error .noHeader, client, [])
  | some header =>
    if header.MessageID = 0 then (.error .noMessageID, client, [])
    else
      let data := frame env header request
      let responseChannel : Chan := client.chans
      let client := { client with chans := client.chans + 1 }
      match client.ResponseQueue with
      | none => (.panic, client, [])
      | some t =>
        let client :=
          { client with ResponseQueue := some (t.set header.MessageID responseChannel) }
        match env.write data with
        | some err => (.error err, client, [.write data])
        | none => (.ok responseChannel, client, [.write data])

/-- Send sends the request and waits for the response for five seconds
(`client.go`, `Client.Send`). While it waits, a concurrent rekey may replace
`client.Key`; a reply can only arrive when the router goroutine is running. -/
def Send (env : Env) (client : Client) (request : Request) :
    Res Response × Client × List Event :=
  match SendAsync env client request with
  | (.error err, client, tr) => (.error err, client, tr)
  | (.panic, client, tr) => (.panic, client, tr)
  | (.exit, client, tr) => (.exit, client, tr)
  | (.ok responseChannel, client, tr) =>
    let client :=
      match env.rekey with
      | some k => { client with Key := k }
      | none => client
    match (if client.router then env.reply responseChannel else none) with
    | some response => (.ok response, client, tr)
    | none => (.error .timeout, client, tr)

/-- The client after the further `SendAsync` calls `later`, in order. -/
def laterSends (env : Env) (client : Client) (later : List Request) : Client :=
  later.foldl (fun c r => (SendAsync env c r).2.1) client

/-- Every channel stored in the waiter table was made before: this holds for the
empty table of `NewClient` and `SendAsync` keeps it. -/
def Client.WF (c : Client) : Prop :=
  ∀ t, c.ResponseQueue = some t → ∀ id ch, t id = some ch → ch < c.chans

/-- The channel `ch` waits for message `id` and for no other message, and it and
every other channel of the table were made before. -/
def Registered (c : Client) (id : Nat) (ch : Chan) : Prop :=
  ∃ t, c.ResponseQueue = some t ∧ t id = some ch ∧
    (∀ k x, t k = some x → x < c.chans) ∧ ∀ k, k ≠ id → t k ≠ some ch

/-! ## Response router -/

/-- The read side of `net.Conn`: the bytes that are still to arrive, and for the
successive `Read` calls the number of bytes each of them hands over at most (the
way the network splits the stream). When the list is used up a `Read` hands over
as much as there is room for. -/
structure ConnIn where
  stream : Bytes
  sched : List Nat
deriving DecidableEq, Repr

/-- One `Read(p)` on the connection with `len(p) = room`: an error at the end of
the stream, otherwise at least one and at most `room` bytes. -/
def ConnIn.Read (s : ConnIn) (room : Nat) : Except Err (Bytes × ConnIn) :=
  match s.stream with
  | [] => .error .eof
  | _ :: _ =>
    let k := match s.sched with
      | [] => room
      | k :: _ => max 1 k
    let n := min k room
    .ok (s.stream.take n, { stream := s.stream.drop n, sched := s.sched.tail })

/-- The size of the buffer of `bufio.NewReader`. -/
def defaultBufSize : Nat := 4096

/-- A `bufio.Reader` over the connection: the buffered bytes not yet handed out and
the connection behind them. -/
structure Reader where
  buf : Bytes
  rd : ConnIn
deriving DecidableEq, Repr

/-- The method `(*bufio.Reader).Read(p)` of the Go standard library with `len(p) = len`:
buffered bytes are handed out first; with an empty buffer it does ONE read on the
underlying reader (directly into `p` when `p` is at least as large as the buffer)
and hands out what that read returned, at most `len` bytes. It returns the bytes read
into the front of `p`. -/
def Reader.Read (b : Reader) (len : Nat) : Except Err (Bytes × Reader) :=
  if len = 0 then .ok ([], b)
  else
    match b.buf with
    | [] =>
      if len ≥ defaultBufSize then
        match b.rd.Read len with
        | .error e => .error e
        | .ok (bs, rd) => .ok (bs, { buf := [], rd := rd })
      else
        match b.rd.Read defaultBufSize with
        | .error e => .error e
        | .ok (bs, rd) => .ok (bs.take len, { buf := bs.drop len, rd := rd })
    | _ :: _ => .ok (b.buf.take len, { buf := b.buf.drop len, rd := b.rd })

/-- The bytes a reader has still to hand out, in stream order: the buffered ones, then
those the connection has not delivered yet. -/
def pending (b : Reader) : Bytes := b.buf ++ b.rd.stream

/-- The loop of `io.ReadFull(r, buf)` (`io.ReadAtLeast`): `Read` into the rest of the
buffer until `need` more bytes are in. `fuel` bounds the number of `Read` calls; each
call that returns no error returns a byte, so `need` calls are always enough. -/
def readFullLoop : Nat → Reader → Nat → Bytes → Except Err (Bytes × Reader)
  | _, b, 0, acc => .ok (acc, b)
  | 0, _, _ + 1, _ => .error .eof
  | fuel + 1, b, need + 1, acc =>
    match b.Read (need + 1) with
    | .error e => .error e
    | .ok (bs, b1) => readFullLoop fuel b1 (need + 1 - bs.length) (acc ++ bs)

/-- The function `io.ReadFull(r, buf)` with `len(buf) = n`. -/
def ReadFull (b : Reader) (n : Nat) : Except Err (Bytes × Reader) :=
  readFullLoop n b n []

/-- Line 55 of `client.go`: `connReader.Read(responseHeaderBytes)`. The result is the
content of `responseHeaderBytes` after the call (the bytes read overwrite its front,
the rest keeps what it held) and the reader after the call. -/
def readHeader (b : Reader) (responseHeaderBytes : Bytes) : Except Err (Bytes × Reader) :=
  match b.Read responseHeaderBytes.length with
  | .error e => .error e
  | .ok (bs, b1) => .ok (bs ++ responseHeaderBytes.drop bs.length, b1)

/-- Modelled from the spec: `Fatal` and `Fatalf` of the package `logger` (not among
the sources) end the router, and with it the process, as `log.Fatal` does. The
constructors tell which of the four calls it was. -/
inductive Fatal where
  | headerRead (e : Err)
  | zeroLength
  | bodyRead (e : Err)
  | noChannel (id : Nat)
deriving DecidableEq, Repr

/-- The result of one iteration of the router loop: a `Fatal` call, or the send of a
response on a channel, with the header buffer and the reader for the next iteration. -/
inductive Step where
  | fatal (f : Fatal)
  | deliver (ch : Chan) (response : Response) (responseHeaderBytes : Bytes) (b : Reader)
deriving DecidableEq, Repr

/-- One iteration of the `for` loop of `handleResponseQueue` (lines 55 to 78). -/
def iteration (env : Env) (t : WaiterTable) (b : Reader) (responseHeaderBytes : Bytes) : Step :=
  match readHeader b responseHeaderBytes with
  | .error e => .fatal (.headerRead e)
  | .ok (responseHeaderBytes, b1) =>
    let responseHeader := env.ParseHeader responseHeaderBytes
    if responseHeader.MessageLength = 0 then .fatal .zeroLength
    else
      match ReadFull b1 responseHeader.MessageLength with
      | .error e => .fatal (.bodyRead e)
      | .ok (responseMessageBytes, b2) =>
        match t responseHeader.MessageID with
        | none => .fatal (.noChannel responseHeader.MessageID)
        | some responseChannel =>
          .deliver responseChannel
            { Header := responseHeader, Message := responseMessageBytes } responseHeaderBytes b2

/-- How a run of the router ends. -/
inductive RouterEnd where
  | returned
  | fatal (f : Fatal)
  | looping
deriving DecidableEq, Repr

/-- The `for` loop of `handleResponseQueue`, run for at most `n` iterations: the
responses sent, oldest first, and how the run ended. -/
def routerLoop (env : Env) (t : WaiterTable) :
    Nat → Reader → Bytes → List (Chan × Response) × RouterEnd
  | 0, _, _ => ([], .looping)
  | n + 1, b, responseHeaderBytes =>
    match iteration env t b responseHeaderBytes with
    | .fatal f => ([], .fatal f)
    | .deliver ch response responseHeaderBytes b2 =>
      let rest := routerLoop env t n b2 responseHeaderBytes
      ((ch, response) :: rest.1, rest.2)

/-- The function `handleResponseQueue` observed for at most `n` iterations over the
read side `conn` of `client.Conn` (`client.go`, lines 47 to 80). -/
def handleResponseQueue (env : Env) (client : Client) (conn : ConnIn) (n : Nat) :
    List (Chan × Response) × RouterEnd :=
  match client.ResponseQueue with
  | none => ([], .returned)
  | some t =>
    let connReader : Reader := { buf := [], rd := conn }
    let responseHeaderBytes : Bytes := List.replicate 100 0
    routerLoop env t n connReader responseHeaderBytes

/-! ## Session key handshake -/

/-- CreateAndSignKey creates a new DES key and signs it with Sirena
(`client.go`, `Client.CreateAndSignKey`). -/
def CreateAndSignKey (env : Env) (client : Client) : Res Unit × Client × List Event :=
  let key := env.randomString 8
  match env.GetKeyFile env.ServerPublicKey with
  | .error err => (.error err, client, [])
  | .ok serverPublicKey =>
    match env.EncryptDataWithServerPubKey key serverPublicKey with
    | .error err => (.error err, client, [])
    | .ok encryptedKey =>
      let p : NewHeaderParams :=
        { Message := encryptedKey, UseEncrypt := true, UseSymmetric := false }
      let header := env.NewHeader p
      let subHeader := env.MakeSubHeader encryptedKey
      match env.GetKeyFile env.ClientPrivateKey with
      | .error err => (.error err, client, [.newHeader p])
      | .ok clientPrivateKey =>
        match env.GeneratePrivateKeySignature encryptedKey clientPrivateKey
            env.ClientPrivateKeyPassword with
        | .error err => (.error err, client, [.newHeader p])
        | .ok encryptedKeySignature =>
          let request : Request :=
            { Header := some header, SubHeader := subHeader, Message := encryptedKey,
              MessageSignature := encryptedKeySignature }
          match Send env client request with
          | (.error err, client, tr) => (.error err, client, .newHeader p :: tr)
          | (.panic, client, tr) => (.panic, client, .newHeader p :: tr)
          | (.exit, client, tr) => (.exit, client, .newHeader p :: tr)
          | (.ok response, client, tr) =>
            if header.ClientID ≠ response.Header.ClientID then
              (.error (.clientIDMismatch header.ClientID response.Header.ClientID), client,
                .newHeader p :: tr)
            else if header.CreatedAt ≠ response.Header.CreatedAt then
              (.error (.createdAtMismatch header.CreatedAt response.Header.CreatedAt), client,
                .newHeader p :: tr)
            else if response.Message.length < 132 then
              (.panic, client, .newHeader p :: tr)
            else
              match env.DecryptDataWithClientPrivateKey ((response.Message.drop 4).take 128)
                  clientPrivateKey env.ClientPrivateKeyPassword with
              | .error err => (.error err, client, .newHeader p :: tr)
              | .ok responseKey =>
                if key ≠ responseKey then
                  (.error (.keyMismatch key responseKey), client, .newHeader p :: tr)
                else
                  (.ok (), { client with Key := responseKey }, .newHeader p :: tr)

/-! ## Encrypted XML round trip -/

/-- The builtin `make([]byte, n)`. -/
def makeBytes (n : Nat) : Bytes := List.replicate n 0

/-- The builtin `copy(dst, src)`: the content of `dst` after the call. -/
def copyBytes (dst src : Bytes) : Bytes :=
  src.take (min dst.length src.length) ++ dst.drop (min dst.length src.length)

/-- The request `SendXMLRequest` builds for the ciphertext (lines 267 to 274). -/
def xmlRequest (env : Env) (xmlCrypted : Bytes) : Request :=
  { Header := some (env.NewHeader
      { Message := xmlCrypted, UseEncrypt := false, UseSymmetric := true }),
    SubHeader := [], Message := xmlCrypted, MessageSignature := [] }

/-- SendXMLRequest sends an XML request to Sirena and expects an XML response
(`client.go`, `Client.SendXMLRequest`). -/
def SendXMLRequest (env : Env) (client : Client) (xml : Bytes) :
    Res Bytes × Client × List Event :=
  if client.Key.length = 0 then (.error .noKey, client, [])
  else
    let requestKey := copyBytes (makeBytes client.Key.length) client.Key
    match env.desEncrypt xml requestKey with
    | .error err => (.error err, client, [.encrypt xml requestKey])
    | .ok xmlCrypted =>
      let p : NewHeaderParams :=
        { Message := xmlCrypted, UseEncrypt := false, UseSymmetric := true }
      let header := env.NewHeader p
      let request : Request :=
        { Header := some header, SubHeader := [], Message := xmlCrypted, MessageSignature := [] }
      let pre : List Event := [.encrypt xml requestKey, .newHeader p]
      match Send env client request with
      | (.error err, client, tr) => (.error err, client, pre ++ tr)
      | (.panic, client, tr) => (.panic, client, pre ++ tr)
      | (.exit, client, tr) => (.exit, client, pre ++ tr)
      | (.ok response, client, tr) =>
        if header.ClientID ≠ response.Header.ClientID then
          (.error (.clientIDMismatch header.ClientID response.Header.ClientID), client, pre ++ tr)
        else if header.CreatedAt ≠ response.Header.CreatedAt then
          (.error (.createdAtMismatch header.CreatedAt response.Header.CreatedAt), client,
            pre ++ tr)
        else
          match env.desDecrypt response.Message requestKey with
          | .error err =>
            (.error err, client, pre ++ tr ++ [.decrypt response.Message requestKey])
          | .ok xmlResponse =>
            (.ok xmlResponse, client, pre ++ tr ++ [.decrypt response.Message requestKey])

/-! ## Constructor -/

/-- NewClientOptions holds named options for `NewClient`. -/
structure NewClientOptions where
  Test : Bool
deriving DecidableEq, Repr

/-- The steps of `NewClient`, in the order in which it performs them. -/
inductive Effect where
  | dial
  | buildTable
  | spawnRouter
  | handshake
  | spawnTicker
deriving DecidableEq, Repr

/-- NewClient connects to Sirena and returns the client (`client.go`, `NewClient`):
the result and the steps performed, oldest first. The handshake runs on the client
as it is at line 99, for which no router goroutine has been started yet. -/
def NewClient (env : Env) (options : List NewClientOptions) : Res Client × List Effect :=
  match env.dial with
  | some _ => (.exit, [.dial])
  | none =>
    let client : Client :=
      { ResponseQueue := some (fun _ => none), Key := [], chans := 0, router := false }
    let doHandshake : Bool :=
      match options with
      | [] => true
      | o :: _ => !o.Test
    if doHandshake then
      match CreateAndSignKey env client with
      | (.ok (), client, _) =>
        (.ok { client with router := true },
          [.dial, .buildTable, .handshake, .spawnTicker, .spawnRouter])
      | (.error _, _, _) => (.exit, [.dial, .buildTable, .handshake])
      | (.panic, _, _) => (.panic, [.dial, .buildTable, .handshake])
      | (.exit, _, _) => (.exit, [.dial, .buildTable, .handshake])
    else
      (.ok { client with router := true }, [.dial, .buildTable, .spawnRouter])

/-! ## Ticket lookup (`structs/get.itin.receipts.data.response.types.go`) -/

/-- TicketForm is a `<ticket_form>` element. -/
structure TicketForm where
  IssueDate : String
  CRTime : String
  PassengerID : String
  NameOfPassenger : String
  DocOfPassenger : String
  Total : String
  SerialNumber : String
deriving DecidableEq, Repr

/-- GetItinReceiptsDataAnswerReceipts is a `<receipts>` element. -/
structure GetItinReceiptsDataAnswerReceipts where
  TicketForm : List TicketForm
deriving DecidableEq, Repr

/-- The `for _, ticket := range t.TicketForm` loop: the copy of the first element
whose `PassengerID` is the argument, or nil. -/
def ticketLoop (passengerID : String) : List TicketForm → Option TicketForm
  | [] => none
  | ticket :: rest =>
    if ticket.PassengerID = passengerID then some ticket else ticketLoop passengerID rest

/-- GetPassengerTicketInfo returns a pointer to a copy of the first matching ticket
form, or nil; the second component is the receiver after the call. -/
def GetPassengerTicketInfo (t : GetItinReceiptsDataAnswerReceipts) (passengerID : String) :
    Option TicketForm × GetItinReceiptsDataAnswerReceipts :=
  (ticketLoop passengerID t.TicketForm, t)

/-! ## Sample collaborators

A concrete environment on which the theorems below are instantiated. The codec is
a toy layout (one byte a field), not the bit layout of the Sirena header. -/

/-- A toy header decoder: one byte a field. -/
def sampleParseHeader (b : Bytes) : Header :=
  { MessageLength := b.getD 3 0, MessageID := b.getD 11 0, ClientID := b.getD 45 0,
    CreatedAt := b.getD 7 0, UseEncrypt := b.getD 46 0 == 1, UseSymmetric := b.getD 47 0 == 1 }

/-- A toy header encoder, the inverse of `sampleParseHeader` on small fields. -/
def sampleToBytes (h : Header) : Bytes :=
  ((((((List.replicate 100 0).set 3 h.MessageLength).set 7 h.CreatedAt).set 11 h.MessageID).set
    45 h.ClientID).set 46 (if h.UseEncrypt then 1 else 0)).set 47 (if h.UseSymmetric then 1 else 0)

/-- A toy header builder: message ID 7, client 5, time 9. -/
def sampleNewHeader (p : NewHeaderParams) : Header :=
  { MessageLength := p.Message.length, MessageID := 7, ClientID := 5, CreatedAt := 9,
    UseEncrypt := p.UseEncrypt, UseSymmetric := p.UseSymmetric }

/-- A toy cipher: the ciphertext is the key followed by the plaintext. -/
def sampleSeal (data key : Bytes) : Except Err Bytes := .ok (key ++ data)

/-- The inverse of `sampleSeal`; fails when the data was sealed under another key. -/
def sampleOpen (data key : Bytes) : Except Err Bytes :=
  if data.take key.length = key then .ok (data.drop key.length) else .error (.other 2)

/-- The reply of the sample server to an XML request: the answer `[60, 62]` sealed
under the key `[1, 2, 3]`, with the header fields of `sampleNewHeader` echoed. -/
def sampleReply : Response :=
  { Header := { MessageLength := 5, MessageID := 7, ClientID := 5, CreatedAt := 9,
                UseEncrypt := false, UseSymmetric := true },
    Message := [1, 2, 3, 60, 62] }

/-- The sample environment: no network error, the sample server replies in time, no
concurrent rekey. -/
def sampleEnv : Env :=
  { ParseHeader := sampleParseHeader
    ToBytes := sampleToBytes
    NewHeader := sampleNewHeader
    MakeSubHeader := fun k => [k.length]
    desEncrypt := sampleSeal
    desDecrypt := sampleOpen
    EncryptDataWithServerPubKey := sampleSeal
    GeneratePrivateKeySignature := fun data key _ => .ok (key ++ data.take 1)
    DecryptDataWithClientPrivateKey := fun data _ _ => .ok (data.take 8)
    GetKeyFile := fun path => .ok path
    ServerPublicKey := [80]
    ClientPrivateKey := [81]
    ClientPrivateKeyPassword := [82]
    randomString := fun n => List.replicate n 65
    dial := none
    write := fun _ => none
    reply := fun _ => some sampleReply
    rekey := none }

/-- A client as `NewClient` builds it under the `Test` option, with the key
`[1, 2, 3]` installed. -/
def sampleClient : Client :=
  { ResponseQueue := some (fun _ => none), Key := [1, 2, 3], chans := 0, router := true }

/-- A request header with message ID 7. -/
def sampleHeader : Header :=
  { MessageLength := 5, MessageID := 7, ClientID := 5, CreatedAt := 9,
    UseEncrypt := true, UseSymmetric := false }

/-- A request with message ID 7, a two-byte subheader and a one-byte signature. -/
def sampleRequest : Request :=
  { Header := some sampleHeader,
    SubHeader := [21, 22], Message := [31, 32], MessageSignature := [41] }

/-- A frame on the wire under the toy codec: the header of a reply to message 7 that
announces two body bytes, then the body `[60, 62]`. -/
def sampleFrame : Bytes :=
  sampleToBytes { MessageLength := 2, MessageID := 7, ClientID := 5, CreatedAt := 9,
                  UseEncrypt := false, UseSymmetric := true } ++ [60, 62]

/-- A fresh reader over a connection that delivers `sampleFrame` and splits it as
`sched` says. -/
def sampleReader (sched : List Nat) : Reader :=
  { buf := [], rd := { stream := sampleFrame, sched := sched } }

/-- A stream whose bytes are all different: a header `1, ..., 100` and a body
`101, 102`. -/
def countingStream : Bytes := List.range' 1 102

/-- A later request, with message ID 8. -/
def laterRequest : Request :=
  { Header := some { sampleHeader with MessageID := 8 },
    SubHeader := [], Message := [33], MessageSignature := [] }

/-- A reply to the handshake request that echoes `ClientID` and `CreatedAt` and
carries a message of ten bytes. -/
def shortReply : Response :=
  { Header := { MessageLength := 10, MessageID := 7, ClientID := 5, CreatedAt := 9,
                UseEncrypt := true, UseSymmetric := false },
    Message := [0, 0, 0, 0, 65, 65, 65, 65, 65, 65] }

/-- A reply to the handshake request that echoes `ClientID` and `CreatedAt` and
carries four framing bytes and 128 bytes from which the sample `crypt` recovers the
key of `random.String`. -/
def keyReply : Response :=
  { shortReply with Message := List.replicate 4 0 ++ List.replicate 128 65 }

/-! ## Theorems -/

set_option maxRecDepth 20000

/-- The loop returns nil exactly when no element matches. -/
theorem ticketLoop_eq_none (pid : String) (l : List TicketForm) :
    ticketLoop pid l = none ↔ ∀ x ∈ l, x.PassengerID ≠ pid := by
  induction l with
  | nil => simp [ticketLoop]
  | cons a l ih =>
    by_cases h : a.PassengerID = pid
    · simp [ticketLoop, h]
    · simp [ticketLoop, h, ih]

/-- A ticket the loop returns is the first matching element of the list. -/
theorem ticketLoop_eq_some (pid : String) (l : List TicketForm) (tf : TicketForm)
    (h : ticketLoop pid l = some tf) :
    ∃ pre post, l = pre ++ tf :: post ∧ (∀ x ∈ pre, x.PassengerID ≠ pid) ∧
      tf.PassengerID = pid := by
  induction l with
  | nil => simp [ticketLoop] at h
  | cons a l ih =>
    by_cases ha : a.PassengerID = pid
    · simp only [ticketLoop, ha, if_true, Option.some.injEq] at h
      subst h
      exact ⟨[], l, rfl, by simp, ha⟩
    · simp only [ticketLoop, ha, if_false] at h
      obtain ⟨pre, post, hl, hpre, htf⟩ := ih h
      refine ⟨a :: pre, post, by simp [hl], ?_, htf⟩
      intro x hx
      rcases List.mem_cons.mp hx with rfl | hx
      · exact ha
      · exact hpre x hx

/-- C10. First-match lookup: `GetPassengerTicketInfo` returns nil exactly when no
element of `TicketForm` has the requested `PassengerID`; a ticket form it returns
equals the first element, in list order, whose `PassengerID` is the argument (the list
splits into elements that do not match, the returned one, and a rest), so its
`PassengerID` is the argument; and the receiver is left as it was. -/
theorem first_match_lookup (t : GetItinReceiptsDataAnswerReceipts) (passengerID : String) :
    ((GetPassengerTicketInfo t passengerID).1 = none ↔
        ∀ x ∈ t.TicketForm, x.PassengerID ≠ passengerID) ∧
    (∀ tf, (GetPassengerTicketInfo t passengerID).1 = some tf →
        ∃ pre post, t.TicketForm = pre ++ tf :: post ∧
          (∀ x ∈ pre, x.PassengerID ≠ passengerID) ∧ tf.PassengerID = passengerID) ∧
    (GetPassengerTicketInfo t passengerID).2 = t :=
  ⟨ticketLoop_eq_none passengerID t.TicketForm,
   fun tf h => ticketLoop_eq_some passengerID t.TicketForm tf h, rfl⟩

/-- The assembled bytes are the four parts in order. -/
theorem frame_eq (env : Env) (h : Header) (r : Request) :
    frame env h r = env.ToBytes h ++ r.SubHeader ++ r.Message ++ r.MessageSignature := by
  unfold frame
  have e1 : ∀ (d x : Bytes), (if x.length > 0 then d ++ x else d) = d ++ x := by
    intro d x
    cases x with
    | nil => simp
    | cons a l => simp
  simp only [e1, List.nil_append]

/-- What `SendAsync` does with a request that passes validation, on a client that
has a waiter table. -/
theorem SendAsync_valid (env : Env) (c : Client) (t : WaiterTable) (r : Request) (h : Header)
    (hq : c.ResponseQueue = some t) (hh : r.Header = some h) (hid : h.MessageID ≠ 0) :
    SendAsync env c r =
      ((match env.write (frame env h r) with
        | some err => Res.error err
        | none => Res.ok c.chans),
       { c with chans := c.chans + 1, ResponseQueue := some (t.set h.MessageID c.chans) },
       [Event.write (frame env h r)]) := by
  unfold SendAsync
  simp only [hh, hid, if_false, hq]
  cases env.write (frame env h r) <;> rfl

/-- C2. Frame assembly: for a request with a header whose `MessageID` is not zero
(on a client that has a waiter table), `SendAsync` makes exactly one `Conn.Write`
call, and the bytes it passes are `ToBytes(header) ++ SubHeader ++ Message ++
MessageSignature` in that order, of length the sum of the four lengths. -/
theorem frame_assembly (env : Env) (c : Client) (t : WaiterTable) (r : Request) (h : Header)
    (hq : c.ResponseQueue = some t) (hh : r.Header = some h) (hid : h.MessageID ≠ 0) :
    (SendAsync env c r).2.2 =
        [Event.write (env.ToBytes h ++ r.SubHeader ++ r.Message ++ r.MessageSignature)] ∧
    (env.ToBytes h ++ r.SubHeader ++ r.Message ++ r.MessageSignature).length =
        (env.ToBytes h).length + r.SubHeader.length + r.Message.length +
          r.MessageSignature.length := by
  rw [SendAsync_valid env c t r h hq hh hid, frame_eq]
  simp [Nat.add_assoc]

/-- C2 at the sample request: the one write carries the 100 header bytes, the
subheader, the message and the signature, 105 bytes. -/
theorem frame_assembly_witness :
    (SendAsync sampleEnv sampleClient sampleRequest).2.2 =
        [Event.write (sampleToBytes
          sampleHeader ++ [21, 22] ++ [31, 32] ++ [41])] ∧
    (sampleToBytes
          sampleHeader ++ [21, 22] ++ [31, 32] ++ [41]).length =
      100 + 2 + 2 + 1 :=
  frame_assembly sampleEnv sampleClient (fun _ => none) sampleRequest
    sampleHeader rfl rfl (by decide)

/-- C3. Request validation: when the header is nil or its `MessageID` is zero,
`SendAsync` returns an error value (and no channel), the client, hence its waiter
table, is what it was, and no `Conn.Write` call is made; when the header is present
with a `MessageID` that is not zero, an error value that `SendAsync` returns is the
error of the `Conn.Write` call on the assembled frame. -/
theorem request_validation (env : Env) (c : Client) (r : Request) :
    ((r.Header = none ∨ ∃ h, r.Header = some h ∧ h.MessageID = 0) →
        (∃ e, (SendAsync env c r).1 = Res.error e) ∧ (SendAsync env c r).2.1 = c ∧
          (SendAsync env c r).2.2 = []) ∧
    (∀ h, r.Header = some h → h.MessageID ≠ 0 →
        ∀ e, (SendAsync env c r).1 = Res.error e → env.write (frame env h r) = some e) := by
  constructor
  · rintro (hn | ⟨h, hh, hz⟩)
    · simp [SendAsync, hn]
    · simp [SendAsync, hh, hz]
  · intro h hh hid e he
    unfold SendAsync at he
    simp only [hh, hid, if_false] at he
    cases hq : c.ResponseQueue with
    | none => simp [hq] at he
    | some t =>
      simp only [hq] at he
      cases hw : env.write (frame env h r) with
      | none => simp [hw] at he
      | some err =>
        simp only [hw, Res.error.injEq] at he
        rw [he]

/-- C3 at two sample requests: one without a header, and one with a header whose
write fails with the error 3. -/
theorem request_validation_witness :
    ((∃ e, (SendAsync sampleEnv sampleClient { sampleRequest with Header := none }).1 =
          Res.error e) ∧
      (SendAsync sampleEnv sampleClient { sampleRequest with Header := none }).2.1 =
          sampleClient ∧
      (SendAsync sampleEnv sampleClient { sampleRequest with Header := none }).2.2 = []) ∧
    ({ sampleEnv with write := fun _ => some (Err.other 3) } : Env).write
        (frame { sampleEnv with write := fun _ => some (Err.other 3) }
          sampleHeader sampleRequest) = some (Err.other 3) :=
  ⟨(request_validation sampleEnv sampleClient { sampleRequest with Header := none }).1
      (Or.inl rfl),
   (request_validation { sampleEnv with write := fun _ => some (Err.other 3) } sampleClient
      sampleRequest).2 _ rfl (by decide) (Err.other 3) rfl⟩

/-- What `Send` does with a request that passes validation, on a client that has a
waiter table. -/
theorem Send_valid (env : Env) (c : Client) (t : WaiterTable) (r : Request) (h : Header)
    (hq : c.ResponseQueue = some t) (hh : r.Header = some h) (hid : h.MessageID ≠ 0) :
    Send env c r =
      (match env.write (frame env h r) with
       | some err =>
         (Res.error err,
          { c with chans := c.chans + 1, ResponseQueue := some (t.set h.MessageID c.chans) },
          [Event.write (frame env h r)])
       | none =>
         ((match (if c.router then env.reply c.chans else none) with
           | some response => Res.ok response
           | none => Res.error Err.timeout),
          { c with chans := c.chans + 1, ResponseQueue := some (t.set h.MessageID c.chans),
                   Key := (match env.rekey with | some k => k | none => c.Key) },
          [Event.write (frame env h r)])) := by
  unfold Send
  rw [SendAsync_valid env c t r h hq hh hid]
  cases hw : env.write (frame env h r) with
  | some err => rfl
  | none =>
    cases hr : env.rekey <;> cases hb : c.router <;> simp only [hr, hb] <;>
      first
        | rfl
        | (cases hp : env.reply c.chans <;> simp [hp])

/-- C7 as stated fails: on a client with an empty waiter table, `Send` of the sample
request (message ID 7) returns the reply, resp. times out, resp. fails on the write,
and each time the table holds the channel 0 under 7 afterwards. -/
theorem waiter_left_behind :
    ((Send sampleEnv sampleClient sampleRequest).1 = Res.ok sampleReply ∧
      (Send sampleEnv sampleClient sampleRequest).2.1.ResponseQueue.bind (fun t => t 7) =
        some 0) ∧
    ((Send { sampleEnv with reply := fun _ => none } sampleClient sampleRequest).1 =
        Res.error Err.timeout ∧
      (Send { sampleEnv with reply := fun _ => none } sampleClient
        sampleRequest).2.1.ResponseQueue.bind (fun t => t 7) = some 0) ∧
    ((Send { sampleEnv with write := fun _ => some (Err.other 3) } sampleClient
        sampleRequest).1 = Res.error (Err.other 3) ∧
      (Send { sampleEnv with write := fun _ => some (Err.other 3) } sampleClient
        sampleRequest).2.1.ResponseQueue.bind (fun t => t 7) = some 0) := by
  decide

/-- C7, amended. For a request that passes validation, `Send` returns in one of three
ways (the reply, the timeout error, the error of the write), and in each of them the
waiter table afterwards is the table before with the channel made by `SendAsync`
stored under `MessageID`: that entry is still there, and every entry for another
`MessageID` is what it was. -/
theorem send_keeps_waiter (env : Env) (c : Client) (t : WaiterTable) (r : Request)
    (h : Header) (hq : c.ResponseQueue = some t) (hh : r.Header = some h)
    (hid : h.MessageID ≠ 0) :
    ((∃ response, (Send env c r).1 = Res.ok response) ∨
      (Send env c r).1 = Res.error Err.timeout ∨
      (∃ e, env.write (frame env h r) = some e ∧ (Send env c r).1 = Res.error e)) ∧
    (∃ t1, (Send env c r).2.1.ResponseQueue = some t1 ∧
      t1 h.MessageID = some c.chans ∧ ∀ id, id ≠ h.MessageID → t1 id = t id) := by
  rw [Send_valid env c t r h hq hh hid]
  have hset : (t.set h.MessageID c.chans) h.MessageID = some c.chans ∧
      ∀ id, id ≠ h.MessageID → (t.set h.MessageID c.chans) id = t id := by
    constructor
    · simp [WaiterTable.set]
    · intro id hne
      simp [WaiterTable.set, hne]
  cases hw : env.write (frame env h r) with
  | some err =>
    exact ⟨Or.inr (Or.inr ⟨err, rfl, rfl⟩), _, rfl, hset⟩
  | none =>
    refine ⟨?_, _, rfl, hset⟩
    cases hp : (if c.router then env.reply c.chans else none) with
    | none => exact Or.inr (Or.inl (by simp [hp]))
    | some response => exact Or.inl ⟨response, by simp [hp]⟩

/-- C7, amended, at the sample request whose reply never comes. -/
theorem send_keeps_waiter_witness :
    ((∃ response, (Send { sampleEnv with reply := fun _ => none } sampleClient
          sampleRequest).1 = Res.ok response) ∨
      (Send { sampleEnv with reply := fun _ => none } sampleClient sampleRequest).1 =
          Res.error Err.timeout ∨
      (∃ e, ({ sampleEnv with reply := fun _ => none } : Env).write
            (frame { sampleEnv with reply := fun _ => none }
              sampleHeader sampleRequest) = some e ∧
          (Send { sampleEnv with reply := fun _ => none } sampleClient sampleRequest).1 =
            Res.error e)) ∧
    (∃ t1, (Send { sampleEnv with reply := fun _ => none } sampleClient
          sampleRequest).2.1.ResponseQueue = some t1 ∧
      t1 7 = some 0 ∧ ∀ id, id ≠ 7 → t1 id = (fun _ => none : WaiterTable) id) :=
  send_keeps_waiter { sampleEnv with reply := fun _ => none } sampleClient (fun _ => none)
    sampleRequest sampleHeader rfl rfl (by decide)

/-- The copy of the key that `SendXMLRequest` makes holds the bytes of the key. -/
theorem copyBytes_makeBytes (k : Bytes) : copyBytes (makeBytes k.length) k = k := by
  simp [copyBytes, makeBytes]

/-- The only effects of `SendAsync` are writes. -/
theorem SendAsync_trace (env : Env) (c : Client) (r : Request) :
    ∀ ev ∈ (SendAsync env c r).2.2, ∃ d, ev = Event.write d := by
  unfold SendAsync
  cases hh : r.Header with
  | none => simp
  | some h =>
    by_cases hid : h.MessageID = 0
    · simp [hid]
    · cases hq : c.ResponseQueue with
      | none => simp [hid, hq]
      | some t => cases hw : env.write (frame env h r) <;> simp [hid, hq, hw]

/-- The effects of `Send` are those of `SendAsync`. -/
theorem Send_trace_eq (env : Env) (c : Client) (r : Request) :
    (Send env c r).2.2 = (SendAsync env c r).2.2 := by
  unfold Send
  rcases SendAsync env c r with ⟨res, c1, tr⟩
  cases res with
  | ok ch =>
    dsimp only
    split <;> rfl
  | error e => rfl
  | panic => rfl
  | exit => rfl

/-- The result of `Send` in terms of `SendAsync` and of the reply. -/
theorem Send_result (env : Env) (c : Client) (r : Request) :
    (Send env c r).1 =
      (match (SendAsync env c r).1 with
       | Res.ok ch =>
         (match (if (SendAsync env c r).2.1.router then env.reply ch else none) with
          | some response => Res.ok response
          | none => Res.error Err.timeout)
       | Res.error e => Res.error e
       | Res.panic => Res.panic
       | Res.exit => Res.exit) := by
  unfold Send
  rcases SendAsync env c r with ⟨res, c1, tr⟩
  cases res with
  | ok ch =>
    dsimp only
    have hr : (match env.rekey with
        | some k => ({ c1 with Key := k } : Client)
        | none => c1).router = c1.router := by
      cases env.rekey <;> rfl
    rw [hr]
    generalize (if c1.router = true then env.reply ch else none) = o
    cases o <;> rfl
  | error e => rfl
  | panic => rfl
  | exit => rfl

/-- A concurrent rekey changes neither the result nor the effects of `Send`. -/
theorem Send_rekey (env : Env) (rk : Option Bytes) (c : Client) (r : Request) :
    (Send { env with rekey := rk } c r).1 = (Send env c r).1 ∧
    (Send { env with rekey := rk } c r).2.2 = (Send env c r).2.2 := by
  have hS : SendAsync { env with rekey := rk } c r = SendAsync env c r := rfl
  constructor
  · rw [Send_result, Send_result, hS]
  · rw [Send_trace_eq, Send_trace_eq, hS]

/-- On a client that has a waiter table `SendAsync` returns a channel or an error. -/
theorem SendAsync_returns (env : Env) (c : Client) (t : WaiterTable) (r : Request)
    (hq : c.ResponseQueue = some t) :
    (∃ ch, (SendAsync env c r).1 = Res.ok ch) ∨ (∃ e, (SendAsync env c r).1 = Res.error e) := by
  unfold SendAsync
  cases hh : r.Header with
  | none => simp
  | some h =>
    by_cases hid : h.MessageID = 0
    · simp [hid]
    · cases hw : env.write (frame env h r) <;> simp [hid, hq, hw]

/-- On a client that has a waiter table `Send` returns a response or an error. -/
theorem Send_returns (env : Env) (c : Client) (t : WaiterTable) (r : Request)
    (hq : c.ResponseQueue = some t) :
    (∃ response, (Send env c r).1 = Res.ok response) ∨
      (∃ e, (Send env c r).1 = Res.error e) := by
  rw [Send_result]
  rcases SendAsync_returns env c t r hq with ⟨ch, h⟩ | ⟨e, h⟩
  · rw [h]
    dsimp only
    generalize (if (SendAsync env c r).2.1.router = true then env.reply ch else none) = o
    cases o with
    | none => exact Or.inr ⟨_, rfl⟩
    | some response => exact Or.inl ⟨_, rfl⟩
  · rw [h]
    exact Or.inr ⟨_, rfl⟩

/-- The result of `SendXMLRequest` in terms of the key at entry and of the result
of `Send`. -/
theorem SendXMLRequest_result (env : Env) (c : Client) (xml : Bytes) :
    (SendXMLRequest env c xml).1 =
      if c.Key.length = 0 then Res.error Err.noKey
      else
        match env.desEncrypt xml c.Key with
        | .error err => Res.error err
        | .ok ct =>
          match (Send env c (xmlRequest env ct)).1 with
          | Res.error err => Res.error err
          | Res.panic => Res.panic
          | Res.exit => Res.exit
          | Res.ok response =>
            if (env.NewHeader
                { Message := ct, UseEncrypt := false, UseSymmetric := true }).ClientID ≠
                response.Header.ClientID then
              Res.error (Err.clientIDMismatch (env.NewHeader
                { Message := ct, UseEncrypt := false, UseSymmetric := true }).ClientID
                response.Header.ClientID)
            else if (env.NewHeader
                { Message := ct, UseEncrypt := false, UseSymmetric := true }).CreatedAt ≠
                response.Header.CreatedAt then
              Res.error (Err.createdAtMismatch (env.NewHeader
                { Message := ct, UseEncrypt := false, UseSymmetric := true }).CreatedAt
                response.Header.CreatedAt)
            else
              match env.desDecrypt response.Message c.Key with
              | .error err => Res.error err
              | .ok xmlResponse => Res.ok xmlResponse := by
  unfold SendXMLRequest
  by_cases hk : c.Key.length = 0
  · simp [hk]
  · simp only [hk, if_false, copyBytes_makeBytes]
    cases henc : env.desEncrypt xml c.Key with
    | error err => rfl
    | ok ct =>
      dsimp only [xmlRequest]
      generalize Send env c
        { Header := some (env.NewHeader
            { Message := ct, UseEncrypt := false, UseSymmetric := true }),
          SubHeader := [], Message := ct, MessageSignature := [] } = S
      rcases S with ⟨res, c1, tr⟩
      cases res with
      | error e => rfl
      | panic => rfl
      | exit => rfl
      | ok response =>
        dsimp only
        split_ifs
        · rfl
        · rfl
        · cases env.desDecrypt response.Message c.Key <;> rfl

/-- The effects of `SendXMLRequest` in terms of the key at entry and of `Send`. -/
theorem SendXMLRequest_trace (env : Env) (c : Client) (xml : Bytes) :
    (SendXMLRequest env c xml).2.2 =
      if c.Key.length = 0 then []
      else
        match env.desEncrypt xml c.Key with
        | .error _ => [Event.encrypt xml c.Key]
        | .ok ct =>
          [Event.encrypt xml c.Key,
            Event.newHeader { Message := ct, UseEncrypt := false, UseSymmetric := true }] ++
          (Send env c (xmlRequest env ct)).2.2 ++
          (match (Send env c (xmlRequest env ct)).1 with
           | Res.ok response =>
             if (env.NewHeader
                 { Message := ct, UseEncrypt := false, UseSymmetric := true }).ClientID ≠
                 response.Header.ClientID then []
             else if (env.NewHeader
                 { Message := ct, UseEncrypt := false, UseSymmetric := true }).CreatedAt ≠
                 response.Header.CreatedAt then []
             else [Event.decrypt response.Message c.Key]
           | _ => []) := by
  unfold SendXMLRequest
  by_cases hk : c.Key.length = 0
  · simp [hk]
  · simp only [hk, if_false, copyBytes_makeBytes]
    cases henc : env.desEncrypt xml c.Key with
    | error err => rfl
    | ok ct =>
      dsimp only [xmlRequest]
      generalize Send env c
        { Header := some (env.NewHeader
            { Message := ct, UseEncrypt := false, UseSymmetric := true }),
          SubHeader := [], Message := ct, MessageSignature := [] } = S
      rcases S with ⟨res, c1, tr⟩
      cases res with
      | error e => simp
      | panic => simp
      | exit => simp
      | ok response =>
        dsimp only
        split_ifs
        · simp
        · simp
        · cases env.desDecrypt response.Message c.Key <;> simp

/-- C4. Key snapshot: when `SendXMLRequest` is entered with a key `K` that is not
empty, `des.Encrypt` is called with `K`, every call of `des.Encrypt` and every call
of `des.Decrypt` it makes has `K` as its key, and neither its result nor its calls
depend on the key that a concurrent `CreateAndSignKey` stores into `client.Key` while
`Send` is waiting. -/
theorem key_snapshot (env : Env) (c : Client) (xml : Bytes) (hk : c.Key ≠ []) :
    (SendXMLRequest env c xml).2.2.head? = some (Event.encrypt xml c.Key) ∧
    (∀ d k, Event.encrypt d k ∈ (SendXMLRequest env c xml).2.2 → k = c.Key) ∧
    (∀ d k, Event.decrypt d k ∈ (SendXMLRequest env c xml).2.2 → k = c.Key) ∧
    (∀ rk, (SendXMLRequest { env with rekey := rk } c xml).1 = (SendXMLRequest env c xml).1 ∧
      (SendXMLRequest { env with rekey := rk } c xml).2.2 =
        (SendXMLRequest env c xml).2.2) := by
  have hlen : ¬ c.Key.length = 0 := by
    intro h
    exact hk (List.length_eq_zero.mp h)
  have hwr : ∀ (r : Request) (ev : Event), ev ∈ (Send env c r).2.2 → ∃ d, ev = Event.write d := by
    intro r ev hev
    rw [Send_trace_eq] at hev
    exact SendAsync_trace env c r ev hev
  refine ⟨?_, ?_, ?_, ?_⟩
  · rw [SendXMLRequest_trace]
    simp only [hlen, if_false]
    cases env.desEncrypt xml c.Key <;> simp
  · intro d k hmem
    rw [SendXMLRequest_trace] at hmem
    simp only [hlen, if_false] at hmem
    cases henc : env.desEncrypt xml c.Key with
    | error err =>
      simp only [henc, List.mem_singleton, Event.encrypt.injEq] at hmem
      exact hmem.2
    | ok ct =>
      simp only [henc, List.mem_append, List.mem_cons, Event.encrypt.injEq, List.mem_singleton,
        reduceCtorEq, List.not_mem_nil, or_false] at hmem
      rcases hmem with (⟨-, h⟩ | hs) | hd
      · exact h
      · obtain ⟨w, hw⟩ := hwr _ _ hs
        cases hw
      · split at hd
        · split_ifs at hd <;> simp at hd
        · simp at hd
  · intro d k hmem
    rw [SendXMLRequest_trace] at hmem
    simp only [hlen, if_false] at hmem
    cases henc : env.desEncrypt xml c.Key with
    | error err =>
      simp [henc] at hmem
    | ok ct =>
      simp only [henc, List.mem_append, List.mem_cons, reduceCtorEq, List.mem_singleton,
        List.not_mem_nil, or_false, false_or] at hmem
      rcases hmem with hs | hd
      · obtain ⟨w, hw⟩ := hwr _ _ hs
        cases hw
      · split at hd
        · split_ifs at hd
          · simp at hd
          · simp at hd
          · simp only [List.mem_singleton, Event.decrypt.injEq] at hd
            exact hd.2
        · simp at hd
  · intro rk
    have hx : ∀ ct, xmlRequest { env with rekey := rk } ct = xmlRequest env ct := fun _ => rfl
    constructor
    · rw [SendXMLRequest_result, SendXMLRequest_result]
      simp only [hx, (Send_rekey env rk c _).1]
    · rw [SendXMLRequest_trace, SendXMLRequest_trace]
      simp only [hx, (Send_rekey env rk c _).1, (Send_rekey env rk c _).2]

/-- C4 at the sample client (key `[1, 2, 3]`) with a rekey to `[9, 9, 9]` while `Send`
waits: the call encrypts under `[1, 2, 3]`, returns what it returns without the rekey,
namely the answer `[60, 62]` opened under `[1, 2, 3]`, and the client ends with the
new key. -/
theorem key_snapshot_witness :
    sampleClient.Key ≠ [] ∧
    (SendXMLRequest { sampleEnv with rekey := some [9, 9, 9] } sampleClient [60, 63]).2.2.head? =
      some (Event.encrypt [60, 63] [1, 2, 3]) ∧
    (SendXMLRequest { sampleEnv with rekey := some [9, 9, 9] } sampleClient [60, 63]).1 =
      (SendXMLRequest sampleEnv sampleClient [60, 63]).1 ∧
    (SendXMLRequest { sampleEnv with rekey := some [9, 9, 9] } sampleClient [60, 63]).1 =
      Res.ok [60, 62] ∧
    (SendXMLRequest { sampleEnv with rekey := some [9, 9, 9] } sampleClient [60, 63]).2.1.Key =
      [9, 9, 9] :=
  ⟨by decide,
   (key_snapshot { sampleEnv with rekey := some [9, 9, 9] } sampleClient [60, 63]
      (by decide)).1,
   ((key_snapshot sampleEnv sampleClient [60, 63] (by decide)).2.2.2 (some [9, 9, 9])).1,
   by decide, by decide⟩

/-- C5. Outcome of `SendXMLRequest` on a client that has a waiter table, with `K` the
key at entry: it returns an error value exactly when `K` is empty, or `des.Encrypt`
fails, or `Send` returns an error, or the response header differs from the request
header in `ClientID` or in `CreatedAt`, or `des.Decrypt` of the response message
under `K` fails; when `K` is empty it has no effect (nothing encrypted, no header
built, nothing written) and leaves the client as it was; and whenever it does not
return an error it returns exactly the value of `des.Decrypt(response.Message, K)`. -/
theorem sendXML_outcome (env : Env) (c : Client) (t : WaiterTable) (xml : Bytes)
    (hq : c.ResponseQueue = some t) :
    ((∃ e, (SendXMLRequest env c xml).1 = Res.error e) ↔
      (c.Key = [] ∨
       (∃ e, env.desEncrypt xml c.Key = .error e) ∨
       (∃ ct, env.desEncrypt xml c.Key = .ok ct ∧
          ((∃ e, (Send env c (xmlRequest env ct)).1 = Res.error e) ∨
           (∃ response, (Send env c (xmlRequest env ct)).1 = Res.ok response ∧
              ((env.NewHeader
                  { Message := ct, UseEncrypt := false, UseSymmetric := true }).ClientID ≠
                  response.Header.ClientID ∨
               (env.NewHeader
                  { Message := ct, UseEncrypt := false, UseSymmetric := true }).CreatedAt ≠
                  response.Header.CreatedAt ∨
               ∃ e, env.desDecrypt response.Message c.Key = .error e)))))) ∧
    (c.Key = [] → (SendXMLRequest env c xml).2.2 = [] ∧ (SendXMLRequest env c xml).2.1 = c) ∧
    ((¬ ∃ e, (SendXMLRequest env c xml).1 = Res.error e) →
      ∃ ct response v, env.desEncrypt xml c.Key = .ok ct ∧
        (Send env c (xmlRequest env ct)).1 = Res.ok response ∧
        env.desDecrypt response.Message c.Key = .ok v ∧
        (SendXMLRequest env c xml).1 = Res.ok v) := by
  have hempty : c.Key = [] → (SendXMLRequest env c xml).2.2 = [] ∧
      (SendXMLRequest env c xml).2.1 = c := by
    intro hk
    simp [SendXMLRequest, hk]
  by_cases hk : c.Key = []
  · refine ⟨⟨fun _ => Or.inl hk, fun _ => ?_⟩, hempty, fun hne => ?_⟩
    · exact ⟨Err.noKey, by simp [SendXMLRequest_result, hk]⟩
    · exact absurd ⟨Err.noKey, by simp [SendXMLRequest_result, hk]⟩ hne
  · have hlen : ¬ c.Key.length = 0 := fun h => hk (List.length_eq_zero.mp h)
    rw [SendXMLRequest_result]
    simp only [hlen, if_false]
    cases henc : env.desEncrypt xml c.Key with
    | error err =>
      refine ⟨⟨fun _ => Or.inr (Or.inl ⟨err, rfl⟩), fun _ => ⟨err, rfl⟩⟩, hempty, fun hne => ?_⟩
      exact absurd ⟨err, rfl⟩ hne
    | ok ct =>
      dsimp only
      rcases Send_returns env c t (xmlRequest env ct) hq with ⟨response, hs⟩ | ⟨e, hs⟩
      · rw [hs]
        dsimp only
        by_cases h1 : (env.NewHeader
            { Message := ct, UseEncrypt := false, UseSymmetric := true }).ClientID =
            response.Header.ClientID
        · by_cases h2 : (env.NewHeader
              { Message := ct, UseEncrypt := false, UseSymmetric := true }).CreatedAt =
              response.Header.CreatedAt
          · simp only [h1, h2, ne_eq, not_true_eq_false, if_false]
            cases hdec : env.desDecrypt response.Message c.Key with
            | error err =>
              refine ⟨⟨fun _ => ?_, fun _ => ⟨err, rfl⟩⟩, hempty, fun hne => ?_⟩
              · exact Or.inr (Or.inr ⟨ct, rfl, Or.inr ⟨response, hs,
                  Or.inr (Or.inr ⟨err, hdec⟩)⟩⟩)
              · exact absurd ⟨err, rfl⟩ hne
            | ok v =>
              refine ⟨⟨fun h => ?_, fun h => ?_⟩, hempty, fun _ =>
                ⟨ct, response, v, rfl, hs, hdec, rfl⟩⟩
              · obtain ⟨e, he⟩ := h
                cases he
              · rcases h with h | ⟨e, he⟩ | ⟨ct1, hct, h⟩
                · exact absurd h hk
                · cases he
                · cases hct
                  rcases h with ⟨e, he⟩ | ⟨r1, hr1, h⟩
                  · rw [hs] at he
                    cases he
                  · rw [hs] at hr1
                    cases hr1
                    rcases h with h | h | ⟨e, he⟩
                    · exact absurd h1 h
                    · exact absurd h2 h
                    · rw [hdec] at he
                      cases he
          · simp only [h1, h2, ne_eq, not_true_eq_false, not_false_eq_true, if_false, if_true]
            refine ⟨⟨fun _ => ?_, fun _ => ⟨_, rfl⟩⟩, hempty, fun hne => ?_⟩
            · exact Or.inr (Or.inr ⟨ct, rfl, Or.inr ⟨response, hs, Or.inr (Or.inl h2)⟩⟩)
            · exact absurd ⟨_, rfl⟩ hne
        · simp only [h1, ne_eq, not_false_eq_true, if_true]
          refine ⟨⟨fun _ => ?_, fun _ => ⟨_, rfl⟩⟩, hempty, fun hne => ?_⟩
          · exact Or.inr (Or.inr ⟨ct, rfl, Or.inr ⟨response, hs, Or.inl h1⟩⟩)
          · exact absurd ⟨_, rfl⟩ hne
      · rw [hs]
        dsimp only
        refine ⟨⟨fun _ => ?_, fun _ => ⟨e, rfl⟩⟩, hempty, fun hne => ?_⟩
        · exact Or.inr (Or.inr ⟨ct, rfl, Or.inl ⟨e, hs⟩⟩)
        · exact absurd ⟨e, rfl⟩ hne

/-- C5 at the sample client and the XML `[60, 63]`: no error is returned, and the
call returns the sample reply opened under the key at entry. -/
theorem sendXML_outcome_witness :
    sampleClient.ResponseQueue.isSome = true ∧
    ∃ ct response v, sampleEnv.desEncrypt [60, 63] sampleClient.Key = .ok ct ∧
      (Send sampleEnv sampleClient (xmlRequest sampleEnv ct)).1 = Res.ok response ∧
      sampleEnv.desDecrypt response.Message sampleClient.Key = .ok v ∧
      (SendXMLRequest sampleEnv sampleClient [60, 63]).1 = Res.ok v :=
  ⟨rfl, (sendXML_outcome sampleEnv sampleClient (fun _ => none) [60, 63] rfl).2.2 (by
    rintro ⟨e, he⟩
    have h2 : (SendXMLRequest sampleEnv sampleClient [60, 63]).1 = Res.ok [60, 62] := by decide
    rw [h2] at he
    cases he)⟩

/-- A read on a connection that has bytes left returns at least one and at most
`room` of them, the next ones of the stream. -/
theorem connRead_spec (s : ConnIn) (room : Nat) (hroom : 0 < room) (hs : s.stream ≠ []) :
    ∃ bs s1, s.Read room = .ok (bs, s1) ∧ bs ≠ [] ∧ bs.length ≤ room ∧
      bs ++ s1.stream = s.stream := by
  unfold ConnIn.Read
  cases hst : s.stream with
  | nil => exact absurd hst hs
  | cons a l =>
    dsimp only
    generalize hk : (match s.sched with
      | [] => room
      | k :: _ => max 1 k) = k0
    have hk0 : 0 < k0 := by
      rw [← hk]
      cases s.sched with
      | nil => exact hroom
      | cons k _ => exact Nat.lt_of_lt_of_le Nat.one_pos (Nat.le_max_left 1 k)
    have hn : 0 < min k0 room := Nat.lt_min.mpr ⟨hk0, hroom⟩
    refine ⟨_, _, rfl, ?_, ?_, ?_⟩
    · obtain ⟨m, hm⟩ := Nat.exists_eq_succ_of_ne_zero (Nat.pos_iff_ne_zero.mp hn)
      rw [hm]
      simp
    · rw [List.length_take]
      exact Nat.le_trans (Nat.min_le_left _ _) (Nat.min_le_right _ _)
    · exact List.take_append_drop _ _

/-- A `Read` for `len > 0` bytes on a reader that has bytes pending returns at least
one and at most `len` of them, the next ones in stream order. -/
theorem bufioRead_spec (b : Reader) (len : Nat) (hlen : 0 < len) (hp : pending b ≠ []) :
    ∃ bs b1, b.Read len = .ok (bs, b1) ∧ bs ≠ [] ∧ bs.length ≤ len ∧
      bs ++ pending b1 = pending b := by
  unfold Reader.Read
  have hlen0 : ¬ len = 0 := Nat.pos_iff_ne_zero.mp hlen
  simp only [hlen0, if_false]
  cases hbuf : b.buf with
  | nil =>
    have hs : b.rd.stream ≠ [] := by
      intro h
      apply hp
      simp [pending, hbuf, h]
    dsimp only
    by_cases hbig : len ≥ defaultBufSize
    · simp only [hbig, if_true]
      obtain ⟨bs, s1, hr, hne, hle, happ⟩ := connRead_spec b.rd len hlen hs
      rw [hr]
      exact ⟨bs, _, rfl, hne, hle, by simp [pending, hbuf, happ]⟩
    · simp only [hbig, if_false]
      obtain ⟨bs, s1, hr, hne, hle, happ⟩ :=
        connRead_spec b.rd defaultBufSize (by decide) hs
      rw [hr]
      refine ⟨bs.take len, _, rfl, ?_, ?_, ?_⟩
      · cases bs with
        | nil => exact absurd rfl hne
        | cons x xs =>
          obtain ⟨m, hm⟩ := Nat.exists_eq_succ_of_ne_zero hlen0
          rw [hm]
          simp
      · rw [List.length_take]
        exact Nat.min_le_left _ _
      · simp only [pending, hbuf, List.nil_append]
        rw [← List.append_assoc, List.take_append_drop, happ]
  | cons x xs =>
    dsimp only
    refine ⟨_, _, rfl, ?_, ?_, ?_⟩
    · obtain ⟨m, hm⟩ := Nat.exists_eq_succ_of_ne_zero hlen0
      rw [hm]
      simp
    · rw [List.length_take]
      exact Nat.min_le_left _ _
    · simp only [pending, hbuf]
      rw [← List.append_assoc, List.take_append_drop]

/-- The loop of `io.ReadFull` returns: with `need` bytes pending and fuel for `need`
calls it yields exactly the next `need` bytes, and the reader is left right behind
them. -/
theorem readFullLoop_spec (fuel : Nat) :
    ∀ (b : Reader) (need : Nat) (acc : Bytes), need ≤ fuel → need ≤ (pending b).length →
      ∃ b1, readFullLoop fuel b need acc = .ok (acc ++ (pending b).take need, b1) ∧
        pending b1 = (pending b).drop need := by
  induction fuel with
  | zero =>
    intro b need acc hf _
    have hz : need = 0 := Nat.le_zero.mp hf
    subst hz
    exact ⟨b, by simp [readFullLoop], by simp⟩
  | succ fuel ih =>
    intro b need acc hf hp
    cases need with
    | zero => exact ⟨b, by simp [readFullLoop], by simp⟩
    | succ n =>
      have hne : pending b ≠ [] := by
        intro h
        rw [h] at hp
        simp at hp
      obtain ⟨bs, b1, hr, hbs, hle, happ⟩ := bufioRead_spec b (n + 1) (Nat.succ_pos n) hne
      have hpos : 0 < bs.length := List.length_pos.mpr hbs
      have hlen : (pending b).length = bs.length + (pending b1).length := by
        rw [← happ, List.length_append]
      obtain ⟨b2, h2, hp2⟩ := ih b1 (n + 1 - bs.length) (acc ++ bs) (by omega) (by omega)
      refine ⟨b2, ?_, ?_⟩
      · simp only [readFullLoop, hr]
        rw [h2, ← happ, List.take_append_eq_append_take, List.take_of_length_le hle,
          List.append_assoc]
      · rw [hp2, ← happ, List.drop_append_eq_append_drop, List.drop_eq_nil_of_le hle,
          List.nil_append]

/-- The function `io.ReadFull` returns exactly the next `n` bytes whenever the
stream still has `n` bytes, however the connection splits them. -/
theorem ReadFull_spec (b : Reader) (n : Nat) (hp : n ≤ (pending b).length) :
    ∃ b1, ReadFull b n = .ok ((pending b).take n, b1) ∧ pending b1 = (pending b).drop n := by
  obtain ⟨b1, h1, h2⟩ := readFullLoop_spec n b n [] (Nat.le_refl n) hp
  exact ⟨b1, by simpa [ReadFull] using h1, h2⟩

/-- When the `Read` of line 55 hands over as many bytes as the header buffer holds,
the buffer is exactly those bytes, and they are the next bytes of the stream. -/
theorem readHeader_whole (b : Reader) (hb H : Bytes) (b1 : Reader)
    (hr : b.Read hb.length = .ok (H, b1)) (hH : H.length = hb.length) :
    readHeader b hb = .ok (H, b1) ∧
      (0 < hb.length → pending b ≠ [] → H ++ pending b1 = pending b) := by
  constructor
  · unfold readHeader
    rw [hr]
    simp [hH]
  · intro hpos hne
    obtain ⟨bs, b2, hr2, -, -, happ⟩ := bufioRead_spec b hb.length hpos hne
    rw [hr] at hr2
    simp only [Except.ok.injEq, Prod.mk.injEq] at hr2
    rw [hr2.1, hr2.2]
    exact happ

/-- When the first read on the connection hands over `k` bytes, fewer than the header
buffer holds, the `Read` of line 55 returns without an error and leaves the buffer
with those `k` bytes in front of what it held before. -/
theorem readHeader_short (stream hb : Bytes) (k : Nat) (rest : List Nat) (hk1 : 1 ≤ k)
    (hk : k < hb.length) (hlen : hb.length < defaultBufSize) (hs : k ≤ stream.length) :
    readHeader { buf := [], rd := { stream := stream, sched := k :: rest } } hb =
      .ok (stream.take k ++ hb.drop k,
           { buf := [], rd := { stream := stream.drop k, sched := rest } }) := by
  have hne : stream ≠ [] := by
    intro h
    rw [h] at hs
    simp at hs
    omega
  have hlen0 : ¬ hb.length = 0 := by omega
  have hbig : ¬ hb.length ≥ defaultBufSize := by omega
  have hmax : max 1 k = k := Nat.max_eq_right hk1
  have hmin : min k defaultBufSize = k := Nat.min_eq_left (by omega)
  have htl : (stream.take k).length = k := by
    rw [List.length_take]
    exact Nat.min_eq_left hs
  unfold readHeader Reader.Read ConnIn.Read
  cases hst : stream with
  | nil => exact absurd hst hne
  | cons a l =>
    rw [hst] at htl
    simp only [hlen0, hbig, if_false, hmax, hmin, List.tail_cons]
    have h1 : ((a :: l).take k).take hb.length = (a :: l).take k := by
      apply List.take_of_length_le
      rw [htl]
      omega
    have h2 : ((a :: l).take k).drop hb.length = [] := by
      apply List.drop_eq_nil_of_le
      rw [htl]
      omega
    rw [h1, h2, htl]

/-- The router returns at once on a client without a waiter table, and otherwise
starts its loop on a fresh buffered reader and a header buffer of 100 zero bytes. -/
theorem handleResponseQueue_unfold (env : Env) (c : Client) (conn : ConnIn) (n : Nat) :
    (c.ResponseQueue = none → handleResponseQueue env c conn n = ([], RouterEnd.returned)) ∧
    (∀ t, c.ResponseQueue = some t →
      handleResponseQueue env c conn (n + 1) =
        match iteration env t { buf := [], rd := conn } (List.replicate 100 0) with
        | .fatal f => ([], RouterEnd.fatal f)
        | .deliver ch response hb b2 =>
          ((ch, response) :: (routerLoop env t n b2 hb).1, (routerLoop env t n b2 hb).2)) := by
  constructor
  · intro hq
    simp [handleResponseQueue, hq]
  · intro t hq
    simp only [handleResponseQueue, hq, routerLoop]

/-- What a successful `SendAsync` did. -/
theorem SendAsync_ok (env : Env) (c : Client) (r : Request) (ch : Chan) (c1 : Client)
    (tr : List Event) (hs : SendAsync env c r = (Res.ok ch, c1, tr)) :
    ∃ h t, r.Header = some h ∧ h.MessageID ≠ 0 ∧ c.ResponseQueue = some t ∧ ch = c.chans ∧
      c1 = { c with chans := c.chans + 1,
                    ResponseQueue := some (t.set h.MessageID c.chans) } := by
  unfold SendAsync at hs
  cases hh : r.Header with
  | none => simp [hh] at hs
  | some h =>
    by_cases hid : h.MessageID = 0
    · simp [hh, hid] at hs
    · cases hq : c.ResponseQueue with
      | none => simp [hh, hid, hq] at hs
      | some t =>
        cases hw : env.write (frame env h r) with
        | some err => simp [hh, hid, hq, hw] at hs
        | none =>
          simp only [hh, hid, hq, hw, if_false, Prod.mk.injEq, Res.ok.injEq] at hs
          exact ⟨h, t, rfl, hid, rfl, hs.1.symm, hs.2.1.symm⟩

/-- The table of `NewClient` is well formed, and `SendAsync` keeps a table well
formed, whatever it returns. -/
theorem SendAsync_WF (env : Env) (c : Client) (r : Request) (hwf : c.WF) :
    ({ ResponseQueue := some (fun _ => none), Key := [], chans := 0, router := false } :
      Client).WF ∧ (SendAsync env c r).2.1.WF := by
  constructor
  · intro t ht id ch hch
    simp only [Option.some.injEq] at ht
    subst ht
    simp at hch
  · unfold SendAsync
    cases hh : r.Header with
    | none => exact hwf
    | some h =>
      by_cases hid : h.MessageID = 0
      · simpa [hid] using hwf
      · cases hq : c.ResponseQueue with
        | none =>
          intro t ht
          simp [hid, hq] at ht
        | some t =>
          have key : ∀ t1, some (t.set h.MessageID c.chans) = some t1 →
              ∀ id ch, t1 id = some ch → ch < c.chans + 1 := by
            intro t1 ht1 id ch hch
            simp only [Option.some.injEq] at ht1
            subst ht1
            simp only [WaiterTable.set] at hch
            by_cases hk : id = h.MessageID
            · rw [if_pos hk] at hch
              injection hch with hch
              rw [← hch]
              exact Nat.lt_succ_self _
            · rw [if_neg hk] at hch
              exact Nat.lt_succ_of_lt (hwf t hq id ch hch)
          cases hw : env.write (frame env h r) <;> simpa [hid, hq, hw, Client.WF] using key

/-- A later `SendAsync` for another message ID keeps a registration. -/
theorem SendAsync_Registered (env : Env) (c : Client) (r : Request) (id : Nat) (ch : Chan)
    (hreg : Registered c id ch) (hne : ∀ h, r.Header = some h → h.MessageID ≠ id) :
    Registered (SendAsync env c r).2.1 id ch := by
  obtain ⟨t, hq, hid, hlt, huniq⟩ := hreg
  unfold SendAsync
  cases hh : r.Header with
  | none => exact ⟨t, hq, hid, hlt, huniq⟩
  | some h =>
    by_cases hz : h.MessageID = 0
    · simpa [hz] using (⟨t, hq, hid, hlt, huniq⟩ : Registered c id ch)
    · have hne1 : h.MessageID ≠ id := hne h hh
      have hreg1 : Registered
          { c with chans := c.chans + 1, ResponseQueue := some (t.set h.MessageID c.chans) }
          id ch := by
        refine ⟨_, rfl, ?_, ?_, ?_⟩
        · simp [WaiterTable.set, Ne.symm hne1, hid]
        · intro k x hx
          simp only [WaiterTable.set] at hx
          by_cases hk : k = h.MessageID
          · rw [if_pos hk] at hx
            injection hx with hx
            show x < c.chans + 1
            rw [← hx]
            exact Nat.lt_succ_self _
          · rw [if_neg hk] at hx
            exact Nat.lt_succ_of_lt (hlt k x hx)
        · intro k hk
          simp only [WaiterTable.set]
          by_cases hk1 : k = h.MessageID
          · rw [if_pos hk1]
            intro hx
            injection hx with hx
            have hlt1 := hlt id ch hid
            rw [hx] at hlt1
            exact Nat.lt_irrefl _ hlt1
          · rw [if_neg hk1]
            exact huniq k hk
      cases hw : env.write (frame env h r) <;> simpa [hz, hq, hw] using hreg1

/-- Later `SendAsync` calls for other message IDs keep a registration. -/
theorem laterSends_Registered (env : Env) (id : Nat) (ch : Chan) (later : List Request) :
    ∀ c : Client, Registered c id ch →
      (∀ r ∈ later, ∀ h, r.Header = some h → h.MessageID ≠ id) →
      Registered (laterSends env c later) id ch := by
  induction later with
  | nil =>
    intro c hreg _
    exact hreg
  | cons r rest ih =>
    intro c hreg hne
    have h1 := SendAsync_Registered env c r id ch hreg (hne r (List.mem_cons_self r rest))
    exact ih _ h1 (fun r1 hr1 => hne r1 (List.mem_cons_of_mem r hr1))

/-- An iteration that decodes a header with a positive length and a registered ID, on
a stream that still has the announced bytes, sends the header and those bytes to the
registered channel. -/
theorem iteration_deliver (env : Env) (t : WaiterTable) (b : Reader) (hb hb1 : Bytes)
    (b1 : Reader) (ch : Chan) (hr : readHeader b hb = .ok (hb1, b1))
    (hpos : 0 < (env.ParseHeader hb1).MessageLength)
    (hlen : (env.ParseHeader hb1).MessageLength ≤ (pending b1).length)
    (ht : t (env.ParseHeader hb1).MessageID = some ch) :
    ∃ b2, iteration env t b hb = Step.deliver ch
        { Header := env.ParseHeader hb1,
          Message := (pending b1).take (env.ParseHeader hb1).MessageLength } hb1 b2 ∧
      pending b2 = (pending b1).drop (env.ParseHeader hb1).MessageLength := by
  obtain ⟨b2, h2, hp2⟩ := ReadFull_spec b1 _ hlen
  refine ⟨b2, ?_, hp2⟩
  unfold iteration
  simp only [hr, Nat.pos_iff_ne_zero.mp hpos, if_false, h2, ht]

/-- An iteration that decodes a message ID without an entry ends in a `Fatal` call. -/
theorem iteration_fatal (env : Env) (t : WaiterTable) (b : Reader) (hb hb1 : Bytes)
    (b1 : Reader) (hr : readHeader b hb = .ok (hb1, b1))
    (ht : t (env.ParseHeader hb1).MessageID = none) :
    ∃ f, iteration env t b hb = Step.fatal f := by
  unfold iteration
  simp only [hr]
  by_cases hz : (env.ParseHeader hb1).MessageLength = 0
  · exact ⟨Fatal.zeroLength, by simp [hz]⟩
  · cases hf : ReadFull b1 (env.ParseHeader hb1).MessageLength with
    | error e => exact ⟨Fatal.bodyRead e, by simp [hz, hf]⟩
    | ok p => exact ⟨Fatal.noChannel (env.ParseHeader hb1).MessageID, by simp [hz, hf, ht]⟩

/-- A response that an iteration sends goes to the channel stored under its
`MessageID`. -/
theorem iteration_target (env : Env) (t : WaiterTable) (b : Reader) (hb : Bytes) (ch : Chan)
    (response : Response) (hb1 : Bytes) (b2 : Reader)
    (h : iteration env t b hb = Step.deliver ch response hb1 b2) :
    t response.Header.MessageID = some ch := by
  unfold iteration at h
  cases hr : readHeader b hb with
  | error e => simp [hr] at h
  | ok p =>
    obtain ⟨hbx, b1⟩ := p
    simp only [hr] at h
    by_cases hz : (env.ParseHeader hbx).MessageLength = 0
    · simp [hz] at h
    · cases hf : ReadFull b1 (env.ParseHeader hbx).MessageLength with
      | error e => simp [hz, hf] at h
      | ok q =>
        obtain ⟨body, bq⟩ := q
        cases ht : t (env.ParseHeader hbx).MessageID with
        | none => simp [hz, hf, ht] at h
        | some ch0 =>
          simp only [hz, hf, ht, if_false, Step.deliver.injEq] at h
          obtain ⟨h1, h2, -, -⟩ := h
          rw [← h2, ← h1]
          exact ht

/-- C1. Reply correlation. Let `SendAsync(r)` succeed on a well-formed client and
return the channel `ch`, and let further `SendAsync` calls follow, none of them for
the `MessageID` of `r`. Then for the waiter table `t` so reached and every state of
the reader: when the iteration of `handleResponseQueue` decodes the header `h1` of
the incoming frame with `h1.MessageLength > 0` and `h1.MessageID = r.Header.MessageID`
(and the stream still holds the announced bytes), it sends the one response made of
`h1` and of the next `h1.MessageLength` bytes of the stream to `ch`; when the decoded
`MessageID` has no entry in `t` it ends in a `Fatal` call and sends nothing; and
whatever an iteration sends goes to the channel stored under the `MessageID` of the
response, which is `ch` exactly when that `MessageID` is the one of `r`. -/
theorem reply_correlation (env : Env) (c : Client) (r : Request) (ch : Chan) (c1 : Client)
    (tr : List Event) (later : List Request)
    (hwf : c.WF) (hs : SendAsync env c r = (Res.ok ch, c1, tr))
    (hlater : ∀ r1 ∈ later, ∀ h h1, r.Header = some h → r1.Header = some h1 →
      h1.MessageID ≠ h.MessageID) :
    ∃ h t, r.Header = some h ∧ (laterSends env c1 later).ResponseQueue = some t ∧
      ∀ (b : Reader) (hb : Bytes),
        (∀ hb1 b1, readHeader b hb = .ok (hb1, b1) →
          (0 < (env.ParseHeader hb1).MessageLength →
            (env.ParseHeader hb1).MessageID = h.MessageID →
            (env.ParseHeader hb1).MessageLength ≤ (pending b1).length →
            ∃ b2, iteration env t b hb = Step.deliver ch
                { Header := env.ParseHeader hb1,
                  Message := (pending b1).take (env.ParseHeader hb1).MessageLength } hb1 b2 ∧
              pending b2 = (pending b1).drop (env.ParseHeader hb1).MessageLength) ∧
          (t (env.ParseHeader hb1).MessageID = none →
            ∃ f, iteration env t b hb = Step.fatal f)) ∧
        (∀ ch1 response hb1 b2, iteration env t b hb = Step.deliver ch1 response hb1 b2 →
          t response.Header.MessageID = some ch1 ∧
          (ch1 = ch ↔ response.Header.MessageID = h.MessageID)) := by
  obtain ⟨h, t, hh, -, hq, hch, hc1⟩ := SendAsync_ok env c r ch c1 tr hs
  have hreg : Registered c1 h.MessageID ch := by
    subst hc1
    subst hch
    refine ⟨_, rfl, ?_, ?_, ?_⟩
    · simp [WaiterTable.set]
    · intro k x hx
      simp only [WaiterTable.set] at hx
      by_cases hk : k = h.MessageID
      · rw [if_pos hk] at hx
        injection hx with hx
        show x < c.chans + 1
        rw [← hx]
        exact Nat.lt_succ_self _
      · rw [if_neg hk] at hx
        exact Nat.lt_succ_of_lt (hwf t hq k x hx)
    · intro k hk
      simp only [WaiterTable.set]
      rw [if_neg hk]
      intro hx
      exact Nat.lt_irrefl _ (hwf t hq k _ hx)
  obtain ⟨t2, hq2, hid2, -, huniq2⟩ := laterSends_Registered env h.MessageID ch later c1 hreg
    (fun r1 hr1 h1 hh1 => hlater r1 hr1 h h1 hh hh1)
  refine ⟨h, t2, hh, hq2, fun b hb =>
    ⟨fun hb1 b1 hr => ⟨fun hpos hmid hlen => ?_, fun hnone => ?_⟩,
     fun ch1 response hb1 b2 hit => ?_⟩⟩
  · exact iteration_deliver env t2 b hb hb1 b1 ch hr hpos hlen (by rw [hmid]; exact hid2)
  · exact iteration_fatal env t2 b hb hb1 b1 hr hnone
  · have ht := iteration_target env t2 b hb ch1 response hb1 b2 hit
    refine ⟨ht, fun heq => ?_, fun heq => ?_⟩
    · by_contra hne
      exact huniq2 _ hne (by rw [ht, heq])
    · rw [heq, hid2] at ht
      injection ht with ht
      exact ht.symm

/-- C1 at the sample request (message ID 7, channel 0), followed by a `SendAsync` for
message ID 8, with the sample frame arriving as the 100 header bytes and then the two
body bytes one at a time: the iteration sends the decoded header and the body
`[60, 62]` to channel 0. -/
theorem reply_correlation_witness :
    sampleClient.WF ∧
    ∃ t b2, (laterSends sampleEnv (SendAsync sampleEnv sampleClient sampleRequest).2.1
        [laterRequest]).ResponseQueue = some t ∧
      iteration sampleEnv t (sampleReader [100, 1, 1]) (List.replicate 100 0) =
        Step.deliver 0
          { Header := { MessageLength := 2, MessageID := 7, ClientID := 5, CreatedAt := 9,
                        UseEncrypt := false, UseSymmetric := true },
            Message := [60, 62] } (sampleFrame.take 100) b2 := by
  have hwf : sampleClient.WF := by
    intro t ht id ch hch
    simp only [sampleClient, Option.some.injEq] at ht
    subst ht
    simp at hch
  refine ⟨hwf, ?_⟩
  obtain ⟨h, t, hh, ht, hall⟩ := reply_correlation sampleEnv sampleClient sampleRequest 0
    (SendAsync sampleEnv sampleClient sampleRequest).2.1 _ [laterRequest] hwf rfl (by
      intro r1 hr1 h h1 hh hh1
      simp only [List.mem_singleton] at hr1
      subst hr1
      cases hh
      cases hh1
      decide)
  cases hh
  obtain ⟨b2, hb2, -⟩ := ((hall (sampleReader [100, 1, 1]) (List.replicate 100 0)).1
    _ _ rfl).1 (by decide) (by decide) (by decide)
  exact ⟨t, b2, ht, hb2⟩

/-- C8 fails on the code. The stream is the header bytes `1, ..., 100` followed by the
body `101, 102`, and the first read on the connection hands over ten bytes. The one
`Read` of line 55 returns those ten bytes without an error, so `ParseHeader` is given
`1, ..., 10` followed by the ninety bytes the buffer held before, not the next 100
bytes of the stream; and under the toy decoder (length in byte 3) the body then read
is `11, 12, 13, 14`, which are bytes of the header. -/
theorem short_header_read :
    readHeader { buf := [], rd := { stream := countingStream, sched := [10] } }
        (List.replicate 100 0) =
      .ok (List.range' 1 10 ++ List.replicate 90 0,
           { buf := [], rd := { stream := List.range' 11 92, sched := [] } }) ∧
    List.range' 1 10 ++ List.replicate 90 0 ≠ countingStream.take 100 ∧
    iteration sampleEnv (fun id => if id = 0 then some 5 else none)
        { buf := [], rd := { stream := countingStream, sched := [10] } }
        (List.replicate 100 0) =
      Step.deliver 5
        { Header := { MessageLength := 4, MessageID := 0, ClientID := 0, CreatedAt := 8,
                      UseEncrypt := false, UseSymmetric := false },
          Message := [11, 12, 13, 14] }
        (List.range' 1 10 ++ List.replicate 90 0)
        { buf := List.range' 15 88, rd := { stream := [], sched := [] } } := by
  refine ⟨rfl, by decide, by decide⟩

/-- C6 fails on the code. Every step of the handshake succeeds and the reply echoes
`ClientID` and `CreatedAt`, but its message has ten bytes: the slice expression
`response.Message[4:132]` is out of range and `CreateAndSignKey` panics, it does not
return an error value. With a message of 132 bytes that carries the key the same
handshake returns nil and installs the key. -/
theorem handshake_short_message :
    shortReply.Message.length = 10 ∧
    (CreateAndSignKey { sampleEnv with reply := fun _ => some shortReply } sampleClient).1 =
      Res.panic ∧
    keyReply.Message.length = 132 ∧
    (CreateAndSignKey { sampleEnv with reply := fun _ => some keyReply } sampleClient).1 =
      Res.ok () ∧
    (CreateAndSignKey { sampleEnv with reply := fun _ => some keyReply } sampleClient).2.1.Key =
      List.replicate 8 65 := by
  refine ⟨by decide, by decide, by decide, by decide, by decide⟩

/-- `SendAsync` does not start the router. -/
theorem SendAsync_router (env : Env) (c : Client) (r : Request) :
    (SendAsync env c r).2.1.router = c.router := by
  unfold SendAsync
  cases hh : r.Header with
  | none => rfl
  | some h =>
    by_cases hid : h.MessageID = 0
    · simp [hid]
    · cases hq : c.ResponseQueue with
      | none => simp [hid, hq]
      | some t => cases hw : env.write (frame env h r) <;> simp [hid, hq, hw]

/-- Without a running router `Send` never returns a response. -/
theorem Send_no_router (env : Env) (c : Client) (r : Request) (h : c.router = false)
    (response : Response) : (Send env c r).1 ≠ Res.ok response := by
  rw [Send_result, SendAsync_router, h]
  cases (SendAsync env c r).1 <;> simp

/-- Without a running router the handshake never succeeds. -/
theorem CreateAndSignKey_no_router (env : Env) (c : Client) (h : c.router = false) :
    (CreateAndSignKey env c).1 ≠ Res.ok () := by
  unfold CreateAndSignKey
  cases env.GetKeyFile env.ServerPublicKey with
  | error e => simp
  | ok serverPublicKey =>
    dsimp only
    cases env.EncryptDataWithServerPubKey (env.randomString 8) serverPublicKey with
    | error e => simp
    | ok encryptedKey =>
      dsimp only
      cases env.GetKeyFile env.ClientPrivateKey with
      | error e => simp
      | ok clientPrivateKey =>
        dsimp only
        cases env.GeneratePrivateKeySignature encryptedKey clientPrivateKey
            env.ClientPrivateKeyPassword with
        | error e => simp
        | ok encryptedKeySignature =>
          dsimp only
          split
          · simp
          · simp
          · simp
          · rename_i heq
            exact absurd (congrArg Prod.fst heq) (Send_no_router env c _ h _)

/-- C9 fails on the code. `NewClient` called without options performs the handshake
before it starts the router (`go client.handleResponseQueue()` is its last
statement), so no reply to the handshake request can be delivered: whatever the
collaborators do, the call never returns a client and never reaches the start of the
router; in the sample environment it dials, builds the table, attempts the handshake
and exits. With `Test` set there is no handshake and the client holds no key. -/
theorem handshake_before_router (env : Env) :
    (∀ c, (NewClient env []).1 ≠ Res.ok c) ∧
    Effect.spawnRouter ∉ (NewClient env []).2 ∧
    (NewClient sampleEnv []).2 = [Effect.dial, Effect.buildTable, Effect.handshake] ∧
    (NewClient sampleEnv [{ Test := true }]).2 =
      [Effect.dial, Effect.buildTable, Effect.spawnRouter] ∧
    (∃ c, (NewClient sampleEnv [{ Test := true }]).1 = Res.ok c ∧ c.Key = []) := by
  have hgen : (∀ c, (NewClient env []).1 ≠ Res.ok c) ∧
      Effect.spawnRouter ∉ (NewClient env []).2 := by
    unfold NewClient
    cases env.dial with
    | some e => simp
    | none =>
      dsimp only
      simp only [if_true]
      split
      · rename_i heq
        exact absurd (congrArg Prod.fst heq) (CreateAndSignKey_no_router env _ rfl)
      · simp
      · simp
      · simp
  exact ⟨hgen.1, hgen.2, by decide, by decide, ⟨_, rfl, rfl⟩⟩

end Sirena
